import Mathlib

/-!
Verification development for the opencode-coworker plugin.

The repository ships two variants of the same plugin, differing in their
persistent store: a structured-file (JSON) backend and an embedded-table
(sqlite) backend.  We shallowly embed both variants: JS objects and Maps
become association lists with insert-in-place semantics, the external
session service becomes an environment of responses plus a recorded list
of outbound calls, and JS `toLowerCase` becomes a character-wise map.
-/

namespace OpencodeCoworker

/-! ## JS object / Map model: association lists keyed by strings -/

/-- Model of JS property read `m[k]` (and `Map.get`): first binding wins;
objects and Maps never hold duplicate keys, so this is exact. -/
def lookupKey {α : Type} (m : List (String × α)) (k : String) : Option α :=
  match m with
  | [] => none
  | p :: rest => if p.1 = k then some p.2 else lookupKey rest k

/-- Model of JS property write `m[k] = v` (and `Map.set`): replace in place
when the key is present, otherwise append in insertion order. -/
def setKey {α : Type} (m : List (String × α)) (k : String) (v : α) : List (String × α) :=
  match m with
  | [] => [(k, v)]
  | p :: rest => if p.1 = k then (k, v) :: rest else p :: setKey rest k v

/-- Model of JS `Map.delete` (and SQL row deletion by key). -/
def delKey {α : Type} (m : List (String × α)) (k : String) : List (String × α) :=
  match m with
  | [] => []
  | p :: rest => if p.1 = k then delKey rest k else p :: delKey rest k

/-- Model of JS `Map.has`. -/
def hasKey {α : Type} (m : List (String × α)) (k : String) : Bool :=
  (lookupKey m k).isSome

/-- Model of JS `String.prototype.toLowerCase` (basic-latin case folding,
applied character by character). -/
def toLowerStr (s : String) : String :=
  ⟨s.data.map Char.toLower⟩

/-! ## Basic lemmas about the JS model -/

theorem lookupKey_setKey_self {α : Type} (m : List (String × α)) (k : String) (v : α) :
    lookupKey (setKey m k v) k = some v := by
  induction m with
  | nil => simp [setKey, lookupKey]
  | cons p rest ih =>
    by_cases h : p.1 = k
    · simp [setKey, h, lookupKey]
    · simp only [setKey, if_neg h, lookupKey, if_neg h, ih]

theorem lookupKey_setKey_of_ne {α : Type} (m : List (String × α)) (k k' : String) (v : α)
    (h : k' ≠ k) : lookupKey (setKey m k v) k' = lookupKey m k' := by
  induction m with
  | nil =>
    simp only [setKey, lookupKey]
    rw [if_neg (Ne.symm h)]
  | cons p rest ih =>
    by_cases hp : p.1 = k
    · simp only [setKey, if_pos hp, lookupKey]
      rw [if_neg (Ne.symm h), if_neg (fun hc : p.1 = k' => h (hc.symm.trans hp))]
    · simp only [setKey, if_neg hp, lookupKey, ih]

theorem lookupKey_eq_none_iff {α : Type} (m : List (String × α)) (k : String) :
    lookupKey m k = none ↔ k ∉ m.map Prod.fst := by
  induction m with
  | nil => simp [lookupKey]
  | cons p rest ih =>
    simp only [lookupKey, List.map_cons, List.mem_cons]
    by_cases h : p.1 = k
    · simp [h]
    · rw [if_neg h, ih]
      constructor
      · intro hk hor
        rcases hor with h1 | h2
        · exact h h1.symm
        · exact hk h2
      · intro hk hm
        exact hk (Or.inr hm)

theorem hasKey_iff_mem {α : Type} (m : List (String × α)) (k : String) :
    hasKey m k = true ↔ k ∈ m.map Prod.fst := by
  rw [hasKey, Option.isSome_iff_ne_none]
  have h := lookupKey_eq_none_iff m k
  constructor
  · intro hne
    by_contra hmem
    exact hne (h.mpr hmem)
  · intro hmem hnone
    exact (h.mp hnone) hmem

theorem map_fst_setKey {α : Type} (m : List (String × α)) (k : String) (v : α) :
    (setKey m k v).map Prod.fst =
      (if (lookupKey m k).isSome then m.map Prod.fst else m.map Prod.fst ++ [k]) := by
  induction m with
  | nil => simp [setKey, lookupKey]
  | cons p rest ih =>
    by_cases h : p.1 = k
    · simp [setKey, h, lookupKey]
    · by_cases h2 : (lookupKey rest k).isSome
      · simp [setKey, h, lookupKey, h2, ih]
      · simp [setKey, h, lookupKey, h2, ih]

theorem lookupKey_delKey_self {α : Type} (m : List (String × α)) (k : String) :
    lookupKey (delKey m k) k = none := by
  induction m with
  | nil => rfl
  | cons p rest ih =>
    by_cases h : p.1 = k
    · simpa [delKey, h] using ih
    · simp [delKey, h, lookupKey, ih]

theorem lookupKey_delKey_of_ne {α : Type} (m : List (String × α)) (k k' : String)
    (h : k' ≠ k) : lookupKey (delKey m k) k' = lookupKey m k' := by
  induction m with
  | nil => rfl
  | cons p rest ih =>
    by_cases hp : p.1 = k
    · have hne : ¬ p.1 = k' := fun hc => h (hc.symm.trans hp)
      simp [delKey, hp, lookupKey, hne, Ne.symm h, ih]
    · simp [delKey, hp, lookupKey, ih]

theorem hasKey_setKey {α : Type} (m : List (String × α)) (k k' : String) (v : α) :
    hasKey (setKey m k v) k' = (k' == k || hasKey m k') := by
  by_cases h : k' = k
  · subst h
    simp [hasKey, lookupKey_setKey_self]
  · simp [hasKey, lookupKey_setKey_of_ne m k k' v h, h]

theorem hasKey_delKey {α : Type} (m : List (String × α)) (k k' : String) :
    hasKey (delKey m k) k' = (k' != k && hasKey m k') := by
  by_cases h : k' = k
  · subst h
    simp [hasKey, lookupKey_delKey_self]
  · simp [hasKey, lookupKey_delKey_of_ne m k k' h, bne_iff_ne, h]

/-! ## Case folding lemmas -/

theorem toNat_ofNat_of_valid (m : Nat) (h : m.isValidChar) :
    (Char.ofNat m).toNat = m := by
  rw [Char.ofNat, dif_pos h]
  rfl

theorem toLower_toLower (c : Char) : (Char.toLower c).toLower = Char.toLower c := by
  unfold Char.toLower
  by_cases h : c.toNat ≥ 65 ∧ c.toNat ≤ 90
  · rw [if_pos h]
    have hv : (c.toNat + 32).isValidChar := Or.inl (by omega)
    have ht : (Char.ofNat (c.toNat + 32)).toNat = c.toNat + 32 :=
      toNat_ofNat_of_valid _ hv
    rw [if_neg]
    rw [ht]
    omega
  · rw [if_neg h, if_neg h]

theorem toLowerStr_toLowerStr (s : String) :
    toLowerStr (toLowerStr s) = toLowerStr s := by
  unfold toLowerStr
  simp only [List.map_map]
  congr 1
  induction s.data with
  | nil => rfl
  | cons c cs ih =>
    simp only [List.map_cons, Function.comp_apply, toLower_toLower, ih]

/-! ## Data model

`Coworker` mirrors the `Coworker` interface of both variants; the optional
`parentId` field is modelled as `Option String` (absent = `none`). -/

structure Coworker where
  sessionId : String
  agentType : String
  createdAt : String
  parentId  : Option String
deriving DecidableEq, Repr

/-- `CoworkerStorage` mirrors the `CoworkerStorage` index-signature object:
an ordered mapping from names to records. -/
abbrev CoworkerStorage := List (String × Coworker)

/-! ## Structured-file (JSON) backend -/

/-- State of the JSON backing file: absent (`fs.existsSync` is false),
unparsable (`JSON.parse` throws), or a parsed object. -/
inductive FileState where
  | missing
  | corrupt
  | content (data : CoworkerStorage)
deriving DecidableEq, Repr

/-- The defensive re-normalization loop shared by both `loadCoworkers`
implementations: rebuild the mapping with every key lower-cased. -/
def normalizeStorage (data : CoworkerStorage) : CoworkerStorage :=
  data.foldl (fun acc p => setKey acc (toLowerStr p.1) p.2) []

/-- `loadCoworkers` of the structured-file variant: a missing or corrupt
file yields the empty mapping, otherwise keys are normalized. -/
def loadCoworkersFile : FileState → CoworkerStorage
  | .missing => []
  | .corrupt => []
  | .content data => normalizeStorage data

/-- `saveCoworkers` of the structured-file variant: rewrite the whole file
with the serialized mapping (JSON round-trips our record type exactly). -/
def saveCoworkersFile (coworkers : CoworkerStorage) : FileState :=
  .content coworkers

/-! ## Embedded-table (sqlite) backend -/

/-- One row of the `coworkers` table (`name` is the primary key,
`parent_id` is nullable). -/
structure DbRow where
  name : String
  session_id : String
  agent_type : String
  created_at : String
  parent_id : Option String
deriving DecidableEq, Repr

abbrev DbTable := List DbRow

/-- JS truthiness coercion used by the sqlite variant (`x || null`,
`x || undefined`): null/undefined and the empty string are falsy. -/
def jsOrNone : Option String → Option String
  | some s => if s = "" then none else some s
  | none => none

/-- Row-to-record conversion in the sqlite variant's `loadCoworkers`
(`parentId: row.parent_id || undefined`). -/
def rowToCoworker (row : DbRow) : Coworker :=
  { sessionId := row.session_id, agentType := row.agent_type,
    createdAt := row.created_at, parentId := jsOrNone row.parent_id }

/-- `loadCoworkers` of the sqlite variant: select every row and rebuild the
mapping keyed by the lower-cased name. -/
def loadCoworkersDb (t : DbTable) : CoworkerStorage :=
  t.foldl (fun acc row => setKey acc (toLowerStr row.name) (rowToCoworker row)) []

/-- Record-to-row conversion in the sqlite variant's `saveCoworkers`
(`name.toLowerCase()`, `coworker.parentId || null`). -/
def coworkerToRow (name : String) (c : Coworker) : DbRow :=
  { name := toLowerStr name, session_id := c.sessionId, agent_type := c.agentType,
    created_at := c.createdAt, parent_id := jsOrNone c.parentId }

/-- `INSERT OR REPLACE` keyed on the primary key `name`: any conflicting
row is deleted and the new row appended. -/
def upsertRow (t : DbTable) (r : DbRow) : DbTable :=
  (t.filter (fun row => row.name != r.name)) ++ [r]

/-- `saveCoworkers` of the sqlite variant: insert-or-replace every entry of
the mapping into the table. -/
def saveCoworkersDb (t : DbTable) (coworkers : CoworkerStorage) : DbTable :=
  coworkers.foldl (fun acc p => upsertRow acc (coworkerToRow p.1 p.2)) t

/-! ## Normalization invariants of the two load operations -/

/-- Every key of the mapping is a fixed point of case folding. -/
def keysNorm {α : Type} (m : List (String × α)) : Bool :=
  (m.map Prod.fst).all (fun k => toLowerStr k == k)

/-- The keys of the mapping are pairwise distinct. -/
abbrev keysNodup {α : Type} (m : List (String × α)) : Prop :=
  (m.map Prod.fst).Nodup

theorem keysNorm_setKey {α : Type} (m : List (String × α)) (k : String) (v : α)
    (h : keysNorm m = true) : keysNorm (setKey m (toLowerStr k) v) = true := by
  unfold keysNorm at h ⊢
  rw [map_fst_setKey]
  by_cases h2 : (lookupKey m (toLowerStr k)).isSome = true
  · rw [if_pos h2]
    exact h
  · rw [if_neg h2]
    simp only [List.all_append, h, Bool.true_and, List.all_cons, List.all_nil,
      Bool.and_true]
    exact beq_iff_eq.mpr (toLowerStr_toLowerStr k)

theorem keysNodup_setKey {α : Type} (m : List (String × α)) (k : String) (v : α)
    (h : keysNodup m) : keysNodup (setKey m k v) := by
  unfold keysNodup at h ⊢
  rw [map_fst_setKey]
  by_cases h2 : (lookupKey m k).isSome = true
  · rw [if_pos h2]
    exact h
  · have hk : k ∉ m.map Prod.fst := by
      rw [← lookupKey_eq_none_iff]
      cases h3 : lookupKey m k with
      | none => rfl
      | some v' => rw [h3] at h2; simp at h2
    rw [if_neg h2]
    simp [List.nodup_append, h, hk]

theorem keysNorm_foldl {α β : Type} (f : β → String) (g : β → α) (l : List β)
    (acc : List (String × α)) (h : keysNorm acc = true) :
    keysNorm (l.foldl (fun a b => setKey a (toLowerStr (f b)) (g b)) acc) = true := by
  induction l generalizing acc with
  | nil => exact h
  | cons b rest ih => exact ih _ (keysNorm_setKey _ _ _ h)

theorem keysNodup_foldl {α β : Type} (f : β → String) (g : β → α) (l : List β)
    (acc : List (String × α)) (h : keysNodup acc) :
    keysNodup (l.foldl (fun a b => setKey a (toLowerStr (f b)) (g b)) acc) := by
  induction l generalizing acc with
  | nil => exact h
  | cons b rest ih => exact ih _ (keysNodup_setKey _ _ _ h)

theorem keysNorm_normalizeStorage (d : CoworkerStorage) :
    keysNorm (normalizeStorage d) = true :=
  keysNorm_foldl Prod.fst Prod.snd d [] rfl

theorem keysNodup_normalizeStorage (d : CoworkerStorage) :
    keysNodup (normalizeStorage d) :=
  keysNodup_foldl Prod.fst Prod.snd d [] List.nodup_nil

theorem keysNorm_loadCoworkersFile (fs : FileState) :
    keysNorm (loadCoworkersFile fs) = true := by
  cases fs with
  | missing => rfl
  | corrupt => rfl
  | content d => exact keysNorm_normalizeStorage d

theorem keysNodup_loadCoworkersFile (fs : FileState) :
    keysNodup (loadCoworkersFile fs) := by
  cases fs with
  | missing => exact List.nodup_nil
  | corrupt => exact List.nodup_nil
  | content d => exact keysNodup_normalizeStorage d

theorem keysNorm_loadCoworkersDb (t : DbTable) :
    keysNorm (loadCoworkersDb t) = true :=
  keysNorm_foldl DbRow.name rowToCoworker t [] rfl

theorem keysNodup_loadCoworkersDb (t : DbTable) :
    keysNodup (loadCoworkersDb t) :=
  keysNodup_foldl DbRow.name rowToCoworker t [] List.nodup_nil

/-! ## Normalizing an already-normalized mapping is the identity -/

theorem setKey_of_lookup_none {α : Type} (m : List (String × α)) (k : String) (v : α)
    (h : lookupKey m k = none) : setKey m k v = m ++ [(k, v)] := by
  induction m with
  | nil => rfl
  | cons p rest ih =>
    by_cases hp : p.1 = k
    · rw [lookupKey, if_pos hp] at h
      exact absurd h (by simp)
    · rw [lookupKey, if_neg hp] at h
      simp [setKey, hp, ih h]

theorem lookupKey_append_of_none {α : Type} (a b : List (String × α)) (k : String)
    (h : lookupKey a k = none) : lookupKey (a ++ b) k = lookupKey b k := by
  induction a with
  | nil => rfl
  | cons p rest ih =>
    by_cases hp : p.1 = k
    · rw [lookupKey, if_pos hp] at h
      exact absurd h (by simp)
    · rw [lookupKey, if_neg hp] at h
      simpa [lookupKey, hp] using ih h

theorem foldl_setKey_app (m acc : CoworkerStorage)
    (hnorm : keysNorm m = true)
    (hdisj : ∀ k ∈ m.map Prod.fst, lookupKey acc k = none)
    (hnodup : keysNodup m) :
    m.foldl (fun a p => setKey a (toLowerStr p.1) p.2) acc = acc ++ m := by
  induction m generalizing acc with
  | nil => simp
  | cons p rest ih =>
    have hp : toLowerStr p.1 = p.1 := by
      have := hnorm
      unfold keysNorm at this
      simp only [List.map_cons, List.all_cons, Bool.and_eq_true, beq_iff_eq] at this
      exact this.1
    have hrestnorm : keysNorm rest = true := by
      unfold keysNorm at hnorm ⊢
      simp only [List.map_cons, List.all_cons, Bool.and_eq_true] at hnorm
      exact hnorm.2
    have hnd : keysNodup rest := (List.nodup_cons.mp hnodup).2
    have hhead : p.1 ∉ rest.map Prod.fst := (List.nodup_cons.mp hnodup).1
    have hacc : lookupKey acc p.1 = none := hdisj p.1 (by simp)
    have hstep : setKey acc (toLowerStr p.1) p.2 = acc ++ [(p.1, p.2)] := by
      rw [hp]
      exact setKey_of_lookup_none acc p.1 p.2 hacc
    have hdisj2 : ∀ k ∈ rest.map Prod.fst, lookupKey (acc ++ [(p.1, p.2)]) k = none := by
      intro k hk
      have hne : p.1 ≠ k := fun hc => hhead (hc ▸ hk)
      rw [lookupKey_append_of_none _ _ _ (hdisj k (by simp [hk]))]
      simp [lookupKey, hne]
    calc (p :: rest).foldl (fun a q => setKey a (toLowerStr q.1) q.2) acc
        = rest.foldl (fun a q => setKey a (toLowerStr q.1) q.2) (acc ++ [(p.1, p.2)]) := by
          rw [List.foldl_cons, hstep]
      _ = (acc ++ [(p.1, p.2)]) ++ rest := ih (acc ++ [(p.1, p.2)]) hrestnorm hdisj2 hnd
      _ = acc ++ p :: rest := by simp

theorem normalizeStorage_eq_self (m : CoworkerStorage)
    (hnorm : keysNorm m = true) (hnodup : keysNodup m) :
    normalizeStorage m = m := by
  unfold normalizeStorage
  have h := foldl_setKey_app m [] hnorm (fun k _ => rfl) hnodup
  simpa using h

/-! ## In-memory liveness tracking and the external-service boundary -/

/-- An in-memory JS `Map` from strings to strings. -/
abbrev SMap := List (String × String)

/-- The two module-level maps: `activeSessions : sessionId -> name` and
`sessionParents : sessionId -> parentId`. -/
structure Liveness where
  activeSessions : SMap
  sessionParents : SMap
deriving DecidableEq, Repr

/-- One outbound `client.session.create` call, as observed by the external
Session Service. -/
structure SessionCreateCall where
  parentID : Option String
  title : String
deriving DecidableEq, Repr

/-- One outbound `client.session.prompt` call. -/
structure PromptCall where
  sessionId : String
  text : String
  agent : Option String
deriving DecidableEq, Repr

/-- External-service responses for one `create` invocation:
`createResult` models `result.data?.id`, `now` models
`new Date().toISOString()`. -/
structure Env where
  createResult : Option String
  now : String
deriving DecidableEq, Repr

/-! ## create_coworker -/

/-- Result of a `create_coworker` execution in the structured-file variant:
the returned text, the resulting file and liveness state, and the calls
issued to the external service. -/
structure CreateFileOutcome where
  text : String
  file : FileState
  live : Liveness
  creates : List SessionCreateCall
  prompts : List PromptCall
deriving DecidableEq, Repr

/-- Result of a `create_coworker` execution in the sqlite variant. -/
structure CreateDbOutcome where
  text : String
  table : DbTable
  live : Liveness
  creates : List SessionCreateCall
  prompts : List PromptCall
deriving DecidableEq, Repr

/-- `createCoworkerTool.execute` of the structured-file variant
(src/index.ts).  Defaults the agent type to "code", links the new session
to the caller via `parentID`, and sends the caller prompt verbatim. -/
def createFile (env : Env) (fs : FileState) (live : Liveness)
    (argName : String) (argAgent : Option String) (argPrompt : String)
    (callerSessionId : String) : CreateFileOutcome :=
  let coworkers := loadCoworkersFile fs
  let name := toLowerStr argName
  match lookupKey coworkers name with
  | some existing =>
    { text := "Error: Coworker \"" ++ name ++ "\" already exists with session "
        ++ existing.sessionId,
      file := fs, live := live, creates := [], prompts := [] }
  | none =>
    let createCall : SessionCreateCall :=
      { parentID := some callerSessionId,
        title := argName ++ " (" ++ argAgent.getD "code" ++ ")" }
    match env.createResult with
    | none =>
      { text := "Error: Failed to create session",
        file := fs, live := live, creates := [createCall], prompts := [] }
    | some sessionId =>
      let promptCall : PromptCall :=
        { sessionId := sessionId, text := argPrompt, agent := some (argAgent.getD "code") }
      let coworkers2 := setKey coworkers name
        { sessionId := sessionId, agentType := argAgent.getD "code",
          createdAt := env.now, parentId := some callerSessionId }
      { text := "Created coworker \"" ++ name ++ "\" (" ++ argAgent.getD "code"
          ++ ") with session " ++ sessionId,
        file := saveCoworkersFile coworkers2,
        live := { activeSessions := setKey live.activeSessions sessionId name,
                  sessionParents := setKey live.sessionParents sessionId callerSessionId },
        creates := [createCall], prompts := [promptCall] }

/-- The ASCII apostrophe used by the sqlite variant's identity preamble. -/
def apos : String := String.singleton (Char.ofNat 39)

/-- The sqlite variant's `modifiedPrompt`:
IMPORTANT: your name is (quoted name). (caller prompt) -/
def modifiedPrompt (argName argPrompt : String) : String :=
  "IMPORTANT: your name is " ++ apos ++ argName ++ apos ++ ". " ++ argPrompt

/-- `createCoworkerTool.execute` of the sqlite variant (embedded in
src/README.md).  Defaults the agent type to "general", creates the session
without a `parentID`, and prefixes the prompt with the identity preamble. -/
def createDb (env : Env) (t : DbTable) (live : Liveness)
    (argName : String) (argAgent : Option String) (argPrompt : String)
    (callerSessionId : String) : CreateDbOutcome :=
  let coworkers := loadCoworkersDb t
  let name := toLowerStr argName
  match lookupKey coworkers name with
  | some existing =>
    { text := "Error: Coworker \"" ++ name ++ "\" already exists with session "
        ++ existing.sessionId,
      table := t, live := live, creates := [], prompts := [] }
  | none =>
    let createCall : SessionCreateCall :=
      { parentID := none,
        title := argName ++ " (" ++ argAgent.getD "general" ++ ")" }
    match env.createResult with
    | none =>
      { text := "Error: Failed to create session",
        table := t, live := live, creates := [createCall], prompts := [] }
    | some sessionId =>
      let promptCall : PromptCall :=
        { sessionId := sessionId, text := modifiedPrompt argName argPrompt,
          agent := some (argAgent.getD "general") }
      let coworkers2 := setKey coworkers name
        { sessionId := sessionId, agentType := argAgent.getD "general",
          createdAt := env.now, parentId := some callerSessionId }
      { text := "Created coworker \"" ++ name ++ "\" (" ++ argAgent.getD "general"
          ++ ") with session " ++ sessionId,
        table := saveCoworkersDb t coworkers2,
        live := { activeSessions := setKey live.activeSessions sessionId name,
                  sessionParents := setKey live.sessionParents sessionId callerSessionId },
        creates := [createCall], prompts := [promptCall] }

/-! ## list_coworkers -/

/-- The per-entry status: "active" iff the record's session is in the
`activeSessions` map. -/
def statusLabel (active : SMap) (info : Coworker) : String :=
  if hasKey active info.sessionId then "active" else "idle"

/-- One line of `list_coworkers` output. -/
def coworkerLine (name : String) (info : Coworker) (status : String) : String :=
  name ++ " (" ++ info.agentType ++ ") → " ++ info.sessionId ++ " [" ++ status ++ "]"

/-- `listCoworkersTool.execute` of the structured-file variant. -/
def listCoworkersFile (fs : FileState) (active : SMap) : String :=
  let entries := loadCoworkersFile fs
  if entries.length = 0 then "No coworkers found"
  else String.intercalate "\n"
    (entries.map (fun p => coworkerLine p.1 p.2 (statusLabel active p.2)))

/-- `listCoworkersTool.execute` of the sqlite variant. -/
def listCoworkersDb (t : DbTable) (active : SMap) : String :=
  let entries := loadCoworkersDb t
  if entries.length = 0 then "No coworkers found"
  else String.intercalate "\n"
    (entries.map (fun p => coworkerLine p.1 p.2 (statusLabel active p.2)))

/-! ## tell_coworker -/

/-- Result of a `tell_coworker` execution in the structured-file variant;
the `file` field records that the backing file is left as it was. -/
structure TellFileOutcome where
  text : String
  file : FileState
  prompts : List PromptCall
deriving DecidableEq, Repr

/-- Result of a `tell_coworker` execution in the sqlite variant. -/
structure TellDbOutcome where
  text : String
  table : DbTable
  prompts : List PromptCall
deriving DecidableEq, Repr

/-- `tellCoworkerTool.execute` of the structured-file variant. -/
def tellCoworkerFile (fs : FileState) (argName message : String) : TellFileOutcome :=
  let coworkers := loadCoworkersFile fs
  let name := toLowerStr argName
  match lookupKey coworkers name with
  | none =>
    { text := "Error: Coworker \"" ++ name
        ++ "\" not found. Use list_coworkers to see available coworkers.",
      file := fs, prompts := [] }
  | some coworker =>
    { text := "Queued message to \"" ++ name ++ "\" (" ++ coworker.agentType ++ ")",
      file := fs,
      prompts := [{ sessionId := coworker.sessionId, text := message, agent := none }] }

/-- `tellCoworkerTool.execute` of the sqlite variant. -/
def tellCoworkerDb (t : DbTable) (argName message : String) : TellDbOutcome :=
  let coworkers := loadCoworkersDb t
  let name := toLowerStr argName
  match lookupKey coworkers name with
  | none =>
    { text := "Error: Coworker \"" ++ name
        ++ "\" not found. Use list_coworkers to see available coworkers.",
      table := t, prompts := [] }
  | some coworker =>
    { text := "Queued message to \"" ++ name ++ "\" (" ++ coworker.agentType ++ ")",
      table := t,
      prompts := [{ sessionId := coworker.sessionId, text := message, agent := none }] }

/-! ## remove_coworker (sqlite variant only) -/

/-- `DELETE FROM coworkers WHERE name = ?`. -/
def deleteRows (t : DbTable) (name : String) : DbTable :=
  t.filter (fun row => row.name != name)

/-- Result of a `remove_coworker` execution. -/
structure RemoveDbOutcome where
  text : String
  table : DbTable
  live : Liveness
  creates : List SessionCreateCall
  prompts : List PromptCall
deriving DecidableEq, Repr

/-- `removeCoworkerTool.execute` of the sqlite variant: delete the row,
drop the session from both liveness maps, never call the external
service. -/
def removeCoworkerDb (t : DbTable) (live : Liveness) (argName : String) : RemoveDbOutcome :=
  let coworkers := loadCoworkersDb t
  let name := toLowerStr argName
  match lookupKey coworkers name with
  | none =>
    { text := "Error: Coworker \"" ++ name
        ++ "\" not found. Use list_coworkers to see available coworkers.",
      table := t, live := live, creates := [], prompts := [] }
  | some coworker =>
    { text := "Removed coworker \"" ++ name ++ "\" (" ++ coworker.agentType ++ ")",
      table := deleteRows t name,
      live := { activeSessions := delKey live.activeSessions coworker.sessionId,
                sessionParents := delKey live.sessionParents coworker.sessionId },
      creates := [], prompts := [] }

/-! ## Helper lemmas about the sqlite save/load pair -/

/-- Every row name of the table is a fixed point of case folding (the
invariant `saveCoworkers` maintains by lower-casing names on write). -/
def rowsNorm (t : DbTable) : Bool :=
  t.all (fun row => toLowerStr row.name == row.name)

theorem jsOrNone_of_ne_empty (x : Option String) (h : x ≠ some "") :
    jsOrNone x = x := by
  cases x with
  | none => rfl
  | some s =>
    have hs : ¬ s = "" := fun hc => h (by rw [hc])
    simp [jsOrNone, hs]

theorem rowToCoworker_coworkerToRow (n : String) (c : Coworker)
    (h : c.parentId ≠ some "") : rowToCoworker (coworkerToRow n c) = c := by
  cases c with
  | mk sid at_ ca pid =>
    simp only [coworkerToRow, rowToCoworker]
    rw [jsOrNone_of_ne_empty _ h, jsOrNone_of_ne_empty _ h]

theorem saveCoworkersDb_eq_map (m : CoworkerStorage) (acc : DbTable)
    (hnorm : keysNorm m = true) (hnodup : keysNodup m)
    (hdisj : ∀ row ∈ acc, row.name ∉ m.map Prod.fst) :
    saveCoworkersDb acc m = acc ++ m.map (fun p => coworkerToRow p.1 p.2) := by
  induction m generalizing acc with
  | nil => simp [saveCoworkersDb]
  | cons p rest ih =>
    have hp : toLowerStr p.1 = p.1 := by
      unfold keysNorm at hnorm
      simp only [List.map_cons, List.all_cons, Bool.and_eq_true, beq_iff_eq] at hnorm
      exact hnorm.1
    have hrestnorm : keysNorm rest = true := by
      unfold keysNorm at hnorm ⊢
      simp only [List.map_cons, List.all_cons, Bool.and_eq_true] at hnorm
      exact hnorm.2
    have hnd : keysNodup rest := (List.nodup_cons.mp hnodup).2
    have hhead : p.1 ∉ rest.map Prod.fst := (List.nodup_cons.mp hnodup).1
    have hfilter : acc.filter (fun row => row.name != (coworkerToRow p.1 p.2).name) = acc := by
      rw [List.filter_eq_self]
      intro row hrow
      have := hdisj row hrow
      simp only [coworkerToRow, hp]
      rw [bne_iff_ne]
      intro hc
      exact this (by simp [hc])
    have hstep : upsertRow acc (coworkerToRow p.1 p.2) = acc ++ [coworkerToRow p.1 p.2] := by
      unfold upsertRow
      rw [hfilter]
    have hdisj2 : ∀ row ∈ acc ++ [coworkerToRow p.1 p.2], row.name ∉ rest.map Prod.fst := by
      intro row hrow
      rcases List.mem_append.mp hrow with h1 | h1
      · intro hc
        exact hdisj row h1 (by simp [hc])
      · simp only [List.mem_singleton] at h1
        subst h1
        simp only [coworkerToRow, hp]
        exact hhead
    calc saveCoworkersDb acc (p :: rest)
        = saveCoworkersDb (acc ++ [coworkerToRow p.1 p.2]) rest := by
          unfold saveCoworkersDb
          rw [List.foldl_cons, hstep]
      _ = (acc ++ [coworkerToRow p.1 p.2]) ++ rest.map (fun q => coworkerToRow q.1 q.2) :=
          ih _ hrestnorm hnd hdisj2
      _ = acc ++ (p :: rest).map (fun q => coworkerToRow q.1 q.2) := by simp

theorem loadCoworkersDb_map_rows (m : CoworkerStorage) (acc : CoworkerStorage)
    (hnorm : keysNorm m = true) (hnodup : keysNodup m)
    (hpar : ∀ p ∈ m, p.2.parentId ≠ some "")
    (hdisj : ∀ k ∈ m.map Prod.fst, lookupKey acc k = none) :
    (m.map (fun p => coworkerToRow p.1 p.2)).foldl
        (fun a row => setKey a (toLowerStr row.name) (rowToCoworker row)) acc
      = acc ++ m := by
  induction m generalizing acc with
  | nil => simp
  | cons p rest ih =>
    have hp : toLowerStr p.1 = p.1 := by
      unfold keysNorm at hnorm
      simp only [List.map_cons, List.all_cons, Bool.and_eq_true, beq_iff_eq] at hnorm
      exact hnorm.1
    have hrestnorm : keysNorm rest = true := by
      unfold keysNorm at hnorm ⊢
      simp only [List.map_cons, List.all_cons, Bool.and_eq_true] at hnorm
      exact hnorm.2
    have hnd : keysNodup rest := (List.nodup_cons.mp hnodup).2
    have hhead : p.1 ∉ rest.map Prod.fst := (List.nodup_cons.mp hnodup).1
    have hkey : toLowerStr (coworkerToRow p.1 p.2).name = p.1 := by
      show toLowerStr (toLowerStr p.1) = p.1
      rw [toLowerStr_toLowerStr, hp]
    have hval : rowToCoworker (coworkerToRow p.1 p.2) = p.2 :=
      rowToCoworker_coworkerToRow p.1 p.2 (hpar p (by simp))
    have hacc : lookupKey acc p.1 = none := hdisj p.1 (by simp)
    have hstep : setKey acc (toLowerStr (coworkerToRow p.1 p.2).name)
        (rowToCoworker (coworkerToRow p.1 p.2)) = acc ++ [(p.1, p.2)] := by
      rw [hkey, hval]
      exact setKey_of_lookup_none acc p.1 p.2 hacc
    have hdisj2 : ∀ k ∈ rest.map Prod.fst, lookupKey (acc ++ [(p.1, p.2)]) k = none := by
      intro k hk
      have hne : p.1 ≠ k := fun hc => hhead (hc ▸ hk)
      rw [lookupKey_append_of_none _ _ _ (hdisj k (by simp [hk]))]
      simp [lookupKey, hne]
    calc ((p :: rest).map (fun q => coworkerToRow q.1 q.2)).foldl
          (fun a row => setKey a (toLowerStr row.name) (rowToCoworker row)) acc
        = (rest.map (fun q => coworkerToRow q.1 q.2)).foldl
            (fun a row => setKey a (toLowerStr row.name) (rowToCoworker row))
            (acc ++ [(p.1, p.2)]) := by
          rw [List.map_cons, List.foldl_cons, hstep]
      _ = (acc ++ [(p.1, p.2)]) ++ rest := ih _ hrestnorm hnd (fun q hq => hpar q (by simp [hq])) hdisj2
      _ = acc ++ p :: rest := by simp

/-- A key reachable from the table fold comes from the accumulator or is
the case folding of some row name. -/
theorem mem_keys_loadCoworkersDb (t : DbTable) (k : String)
    (h : k ∈ (loadCoworkersDb t).map Prod.fst) :
    ∃ row ∈ t, toLowerStr row.name = k := by
  unfold loadCoworkersDb at h
  suffices haux : ∀ (l : DbTable) (acc : CoworkerStorage),
      k ∈ ((l.foldl (fun a row => setKey a (toLowerStr row.name) (rowToCoworker row)) acc).map
        Prod.fst) →
      k ∈ acc.map Prod.fst ∨ ∃ row ∈ l, toLowerStr row.name = k by
    rcases haux t [] h with h1 | h1
    · simp at h1
    · exact h1
  intro l
  induction l with
  | nil => exact fun acc h2 => Or.inl h2
  | cons b rest ih =>
    intro acc h2
    rcases ih _ h2 with hacc | ⟨b', hb', hk⟩
    · rw [map_fst_setKey] at hacc
      by_cases h3 : (lookupKey acc (toLowerStr b.name)).isSome = true
      · rw [if_pos h3] at hacc
        exact Or.inl hacc
      · rw [if_neg h3] at hacc
        rcases List.mem_append.mp hacc with h4 | h4
        · exact Or.inl h4
        · simp only [List.mem_singleton] at h4
          exact Or.inr ⟨b, by simp, h4.symm⟩
    · exact Or.inr ⟨b', by simp [hb'], hk⟩

/-! ## C4 -/

/-- State of the sqlite backing resource on disk: the database file may be
unreadable or corrupt (opening or querying it then throws inside the
database library), or it is usable and holds the coworkers table, which
`getDb` creates empty when the file is absent. -/
inductive DbResource where
  | corrupt
  | table (t : DbTable)
deriving DecidableEq, Repr

/-- `loadCoworkers` of the sqlite variant viewed over the backing
resource: unlike the structured-file variant, the sqlite `loadCoworkers`
wraps no try/catch around `getDb` and the SELECT, so on a corrupt or
unreadable database the library's failure propagates to the caller
(modelled as `Except.error`) instead of yielding an empty mapping. -/
def loadCoworkersDbRes : DbResource → Except Unit CoworkerStorage
  | .corrupt => .error ()
  | .table t => .ok (loadCoworkersDb t)

/-- C4 counterexample: the embedded-table backend fails on a corrupt or
unreadable backing resource rather than returning the empty mapping - the
sqlite variant's loadCoworkers has no try/catch, so the claim's
"returns an empty mapping rather than failing when the backing resource
is unreadable or corrupt" is false of that backend. -/
theorem loadAll_corrupt_db_cex :
    loadCoworkersDbRes .corrupt = .error () ∧
    loadCoworkersDbRes .corrupt ≠ .ok ([] : CoworkerStorage) :=
  ⟨rfl, fun h => Except.noConfusion h⟩

/-- C4 amended: the structured-file backend's loadAll is total with
case-folded keys, returning the empty mapping on a missing or unparsable
file; the embedded-table backend also returns only case-folded keys and
loads the freshly created empty table as the empty mapping, but a corrupt
or unreadable database propagates the failure instead of yielding an
empty mapping. -/
theorem loadAll_normalized_total :
    (∀ fs : FileState, keysNorm (loadCoworkersFile fs) = true) ∧
    loadCoworkersFile .missing = [] ∧
    loadCoworkersFile .corrupt = [] ∧
    (∀ t : DbTable, loadCoworkersDbRes (.table t) = .ok (loadCoworkersDb t) ∧
      keysNorm (loadCoworkersDb t) = true) ∧
    loadCoworkersDbRes (.table []) = .ok [] ∧
    loadCoworkersDbRes .corrupt = .error () :=
  ⟨keysNorm_loadCoworkersFile, rfl, rfl,
   fun t => ⟨rfl, keysNorm_loadCoworkersDb t⟩, rfl, rfl⟩

/-! ## C5 -/

/-- C5 counterexample: the embedded-table backend does not round-trip a
record whose parentId is the empty string - the JS falsiness coercions in
its save and load paths store NULL and reload the field as absent, so the
reloaded record differs from the saved one. -/
theorem store_roundtrip_cex :
    loadCoworkersDb (saveCoworkersDb []
        [("a", ⟨"s1", "code", "t0", some ""⟩)]) ≠
      [("a", ⟨"s1", "code", "t0", some ""⟩)] := by
  decide

/-- C5 amended: provided every key of the mapping is already case-folded,
the keys are pairwise distinct, and no present parentId is the empty
string, saving the mapping and reloading it reproduces it field-for-field
in both backends (the embedded-table backend collapses an empty-string
parentId to absent, which the counterexample exhibits). -/
theorem store_roundtrip (m : CoworkerStorage)
    (hnorm : keysNorm m = true) (hnodup : keysNodup m)
    (hpar : ∀ p ∈ m, p.2.parentId ≠ some "") :
    loadCoworkersFile (saveCoworkersFile m) = m ∧
    loadCoworkersDb (saveCoworkersDb [] m) = m := by
  constructor
  · exact normalizeStorage_eq_self m hnorm hnodup
  · rw [saveCoworkersDb_eq_map m [] hnorm hnodup (by intro row h; simp at h)]
    unfold loadCoworkersDb
    have h := loadCoworkersDb_map_rows m [] hnorm hnodup hpar (fun k _ => rfl)
    simpa using h

/-- C5 witness: a two-record mapping with case-folded distinct keys and a
present plus an absent parentId round-trips through both backends. -/
theorem store_roundtrip_witness :
    keysNorm [("bob", (⟨"s1", "code", "t0", some "p0"⟩ : Coworker)),
              ("alice", ⟨"s2", "researcher", "t1", none⟩)] = true ∧
    keysNodup [("bob", (⟨"s1", "code", "t0", some "p0"⟩ : Coworker)),
               ("alice", ⟨"s2", "researcher", "t1", none⟩)] ∧
    (∀ p ∈ [("bob", (⟨"s1", "code", "t0", some "p0"⟩ : Coworker)),
            ("alice", ⟨"s2", "researcher", "t1", none⟩)], p.2.parentId ≠ some "") ∧
    (loadCoworkersFile (saveCoworkersFile
        [("bob", (⟨"s1", "code", "t0", some "p0"⟩ : Coworker)),
         ("alice", ⟨"s2", "researcher", "t1", none⟩)]) =
      [("bob", ⟨"s1", "code", "t0", some "p0"⟩),
       ("alice", ⟨"s2", "researcher", "t1", none⟩)] ∧
     loadCoworkersDb (saveCoworkersDb []
        [("bob", (⟨"s1", "code", "t0", some "p0"⟩ : Coworker)),
         ("alice", ⟨"s2", "researcher", "t1", none⟩)]) =
      [("bob", ⟨"s1", "code", "t0", some "p0"⟩),
       ("alice", ⟨"s2", "researcher", "t1", none⟩)]) :=
  ⟨by decide, by decide, by decide,
   store_roundtrip _ (by decide) (by decide) (by decide)⟩

/-! ## C9 -/

theorem statusLabel_eq_mem (active : SMap) (c : Coworker) :
    statusLabel active c =
      (if c.sessionId ∈ active.map Prod.fst then "active" else "idle") := by
  unfold statusLabel
  by_cases h : hasKey active c.sessionId = true
  · rw [if_pos h, if_pos ((hasKey_iff_mem _ _).mp h)]
  · rw [if_neg h, if_neg (fun hm => h ((hasKey_iff_mem _ _).mpr hm))]

/-- C9: list returns "No coworkers found" on an empty registry, and
otherwise renders exactly one line per stored record, each tagged
"active" precisely when the record's sessionId is a key of the liveness
tracker and "idle" otherwise.  Stated for both variants, whose list
bodies are identical. -/
theorem list_spec (fs : FileState) (t : DbTable) (active : SMap) :
    (loadCoworkersFile fs = [] → listCoworkersFile fs active = "No coworkers found") ∧
    (loadCoworkersFile fs ≠ [] →
      listCoworkersFile fs active = String.intercalate "\n"
        ((loadCoworkersFile fs).map (fun p => coworkerLine p.1 p.2
          (if p.2.sessionId ∈ active.map Prod.fst then "active" else "idle")))) ∧
    (loadCoworkersDb t = [] → listCoworkersDb t active = "No coworkers found") ∧
    (loadCoworkersDb t ≠ [] →
      listCoworkersDb t active = String.intercalate "\n"
        ((loadCoworkersDb t).map (fun p => coworkerLine p.1 p.2
          (if p.2.sessionId ∈ active.map Prod.fst then "active" else "idle")))) := by
  refine ⟨fun h => ?_, fun h => ?_, fun h => ?_, fun h => ?_⟩
  · simp [listCoworkersFile, h]
  · have hlen : ¬ ((loadCoworkersFile fs).length = 0) := by
      simpa [List.length_eq_zero] using h
    simp only [listCoworkersFile, if_neg hlen, statusLabel_eq_mem]
  · simp [listCoworkersDb, h]
  · have hlen : ¬ ((loadCoworkersDb t).length = 0) := by
      simpa [List.length_eq_zero] using h
    simp only [listCoworkersDb, if_neg hlen, statusLabel_eq_mem]

/-- C9 witness: the empty registry case on a missing file and a rendered
one-record listing (tagged active) on a one-row table. -/
theorem list_spec_witness :
    loadCoworkersFile .missing = [] ∧
    listCoworkersFile .missing [("s1", "bob")] = "No coworkers found" ∧
    loadCoworkersDb [⟨"bob", "s1", "code", "t0", none⟩] ≠ [] ∧
    listCoworkersDb [⟨"bob", "s1", "code", "t0", none⟩] [("s1", "bob")]
      = "bob (code) → s1 [active]" := by
  refine ⟨rfl, ?_, by decide, ?_⟩
  · exact (list_spec .missing [] [("s1", "bob")]).1 rfl
  · have h := (list_spec .missing [⟨"bob", "s1", "code", "t0", none⟩]
      [("s1", "bob")]).2.2.2 (by decide)
    exact h.trans (by decide)

/-! ## C7 -/

/-- C7: tell on a name whose normalized form is absent returns the
NotFound text and sends nothing; on a present name it forwards the
message verbatim to the stored sessionId; in both cases the backing file
is left exactly as it was (structured-file variant). -/
theorem tell_spec (fs : FileState) (argName message : String) :
    (lookupKey (loadCoworkersFile fs) (toLowerStr argName) = none →
      (tellCoworkerFile fs argName message).text =
        "Error: Coworker \"" ++ toLowerStr argName
          ++ "\" not found. Use list_coworkers to see available coworkers." ∧
      (tellCoworkerFile fs argName message).prompts = [] ∧
      (tellCoworkerFile fs argName message).file = fs) ∧
    (∀ c, lookupKey (loadCoworkersFile fs) (toLowerStr argName) = some c →
      (tellCoworkerFile fs argName message).prompts =
        [⟨c.sessionId, message, none⟩] ∧
      (tellCoworkerFile fs argName message).file = fs) := by
  constructor
  · intro h
    simp [tellCoworkerFile, h]
  · intro c h
    simp [tellCoworkerFile, h]

/-- C7 witness: telling a never-created name on a missing file sends
nothing, and telling a present name forwards the message to its stored
session. -/
theorem tell_spec_witness :
    lookupKey (loadCoworkersFile .missing) (toLowerStr "ghost") = none ∧
    (tellCoworkerFile .missing "ghost" "msg").prompts = [] ∧
    (tellCoworkerFile .missing "ghost" "msg").file = .missing ∧
    lookupKey (loadCoworkersFile (.content [("bob", ⟨"s1", "code", "t0", none⟩)]))
      (toLowerStr "Bob") = some ⟨"s1", "code", "t0", none⟩ ∧
    (tellCoworkerFile (.content [("bob", ⟨"s1", "code", "t0", none⟩)]) "Bob" "msg").prompts
      = [⟨"s1", "msg", none⟩] := by
  refine ⟨by decide, ?_, ?_, by decide, ?_⟩
  · exact ((tell_spec .missing "ghost" "msg").1 (by decide)).2.1
  · exact ((tell_spec .missing "ghost" "msg").1 (by decide)).2.2
  · exact ((tell_spec (.content [("bob", ⟨"s1", "code", "t0", none⟩)]) "Bob" "msg").2
      ⟨"s1", "code", "t0", none⟩ (by decide)).1

/-! ## C8 -/

/-- C8: remove on an absent normalized name fails with the NotFound text
and changes nothing; on a present name it deletes the record from the
store (the name no longer resolves after a reload, all other rows are
kept), removes the record's sessionId from both liveness maps, and issues
no call to the external Session Service. -/
theorem remove_spec (t : DbTable) (live : Liveness) (argName : String) :
    (lookupKey (loadCoworkersDb t) (toLowerStr argName) = none →
      (removeCoworkerDb t live argName).text =
        "Error: Coworker \"" ++ toLowerStr argName
          ++ "\" not found. Use list_coworkers to see available coworkers." ∧
      (removeCoworkerDb t live argName).table = t ∧
      (removeCoworkerDb t live argName).live = live) ∧
    (rowsNorm t = true →
      ∀ c, lookupKey (loadCoworkersDb t) (toLowerStr argName) = some c →
      lookupKey (loadCoworkersDb (removeCoworkerDb t live argName).table)
        (toLowerStr argName) = none ∧
      (∀ row ∈ t, row.name ≠ toLowerStr argName →
        row ∈ (removeCoworkerDb t live argName).table) ∧
      lookupKey (removeCoworkerDb t live argName).live.activeSessions c.sessionId = none ∧
      lookupKey (removeCoworkerDb t live argName).live.sessionParents c.sessionId = none ∧
      (removeCoworkerDb t live argName).creates = [] ∧
      (removeCoworkerDb t live argName).prompts = []) := by
  constructor
  · intro h
    simp [removeCoworkerDb, h]
  · intro hnorm c h
    simp only [removeCoworkerDb, h]
    refine ⟨?_, ?_, lookupKey_delKey_self _ _, lookupKey_delKey_self _ _,
      by trivial, by trivial⟩
    · rw [lookupKey_eq_none_iff]
      intro hmem
      rcases mem_keys_loadCoworkersDb _ _ hmem with ⟨row, hrow, hk⟩
      have hrow2 := List.mem_filter.mp hrow
      have hne : row.name ≠ toLowerStr argName := bne_iff_ne.mp hrow2.2
      have hfix : toLowerStr row.name = row.name := by
        unfold rowsNorm at hnorm
        have := List.all_eq_true.mp hnorm row hrow2.1
        exact beq_iff_eq.mp this
      exact hne (hfix ▸ hk)
    · intro row hrow hne
      exact List.mem_filter.mpr ⟨hrow, bne_iff_ne.mpr hne⟩

/-- C8 witness: removing "Bob" from a one-row table whose session is
tracked deletes the row and both liveness entries without contacting the
external service. -/
theorem remove_spec_witness :
    rowsNorm [⟨"bob", "s1", "code", "t0", none⟩] = true ∧
    lookupKey (loadCoworkersDb [⟨"bob", "s1", "code", "t0", none⟩]) (toLowerStr "Bob")
      = some ⟨"s1", "code", "t0", none⟩ ∧
    (lookupKey (loadCoworkersDb (removeCoworkerDb [⟨"bob", "s1", "code", "t0", none⟩]
        ⟨[("s1", "bob")], [("s1", "p0")]⟩ "Bob").table) (toLowerStr "Bob") = none ∧
     lookupKey (removeCoworkerDb [⟨"bob", "s1", "code", "t0", none⟩]
        ⟨[("s1", "bob")], [("s1", "p0")]⟩ "Bob").live.activeSessions "s1" = none ∧
     lookupKey (removeCoworkerDb [⟨"bob", "s1", "code", "t0", none⟩]
        ⟨[("s1", "bob")], [("s1", "p0")]⟩ "Bob").live.sessionParents "s1" = none ∧
     (removeCoworkerDb [⟨"bob", "s1", "code", "t0", none⟩]
        ⟨[("s1", "bob")], [("s1", "p0")]⟩ "Bob").creates = [] ∧
     (removeCoworkerDb [⟨"bob", "s1", "code", "t0", none⟩]
        ⟨[("s1", "bob")], [("s1", "p0")]⟩ "Bob").prompts = []) := by
  refine ⟨by decide, by decide, ?_⟩
  have h := (remove_spec [⟨"bob", "s1", "code", "t0", none⟩]
      ⟨[("s1", "bob")], [("s1", "p0")]⟩ "Bob").2 (by decide)
      ⟨"s1", "code", "t0", none⟩ (by decide)
  exact ⟨h.1, h.2.2.1, h.2.2.2.1, h.2.2.2.2.1, h.2.2.2.2.2⟩

/-! ## C6 -/

/-- C6: when the external session-creation call returns no identifier,
create returns the UpstreamFailure text, sends no prompt, leaves the
persistent store unwritten and the liveness maps untouched; only the
failed session-creation call reaches the external service.  Stated for
both variants. -/
theorem create_upstream_failure (now : String) (fs : FileState) (t : DbTable)
    (liveF liveD : Liveness) (n : String) (a : Option String) (p c : String) :
    (lookupKey (loadCoworkersFile fs) (toLowerStr n) = none →
      createFile ⟨none, now⟩ fs liveF n a p c =
        { text := "Error: Failed to create session", file := fs, live := liveF,
          creates := [⟨some c, n ++ " (" ++ a.getD "code" ++ ")"⟩], prompts := [] }) ∧
    (lookupKey (loadCoworkersDb t) (toLowerStr n) = none →
      createDb ⟨none, now⟩ t liveD n a p c =
        { text := "Error: Failed to create session", table := t, live := liveD,
          creates := [⟨none, n ++ " (" ++ a.getD "general" ++ ")"⟩], prompts := [] }) := by
  constructor
  · intro h
    simp [createFile, h]
  · intro h
    simp [createDb, h]

/-- C6 witness: a failed session creation for a fresh name on an empty
store in both variants. -/
theorem create_upstream_failure_witness :
    lookupKey (loadCoworkersFile .missing) (toLowerStr "bob") = none ∧
    lookupKey (loadCoworkersDb []) (toLowerStr "bob") = none ∧
    createFile ⟨none, "t0"⟩ .missing ⟨[], []⟩ "bob" none "hi" "p0" =
      { text := "Error: Failed to create session", file := .missing, live := ⟨[], []⟩,
        creates := [⟨some "p0", "bob (code)"⟩], prompts := [] } ∧
    createDb ⟨none, "t0"⟩ [] ⟨[], []⟩ "bob" none "hi" "p0" =
      { text := "Error: Failed to create session", table := [], live := ⟨[], []⟩,
        creates := [⟨none, "bob (general)"⟩], prompts := [] } := by
  refine ⟨by decide, by decide, ?_, ?_⟩
  · exact ((create_upstream_failure "t0" .missing [] ⟨[], []⟩ ⟨[], []⟩ "bob" none
      "hi" "p0").1 (by decide)).trans (by decide)
  · exact ((create_upstream_failure "t0" .missing [] ⟨[], []⟩ ⟨[], []⟩ "bob" none
      "hi" "p0").2 (by decide)).trans (by decide)

/-! ## C3 -/

theorem data_append (s u : String) : (s ++ u).data = s.data ++ u.data := by
  cases s
  cases u
  rfl

/-- C3 counterexample: in the structured-file variant the initial prompt
sent to the new session is the caller prompt verbatim - for name "bob"
and prompt "hi" the sent text is "hi", which does not contain the
assigned name as a substring, so no identity-establishing preamble
stating the name is present. -/
theorem initial_prompt_preamble_cex :
    (createFile ⟨some "s1", "t0"⟩ .missing ⟨[], []⟩ "bob" none "hi" "p0").prompts
      = [⟨"s1", "hi", some "code"⟩] ∧
    ¬ ∃ l r : List Char, ("hi").data = l ++ ("bob").data ++ r := by
  constructor
  · decide
  · rintro ⟨l, r, hlr⟩
    have h2 : (['h', 'i'] : List Char) = l ++ ['b', 'o', 'b'] ++ r := hlr
    have hlen := congrArg List.length h2
    simp [List.length_append] at hlen
    omega

/-- C3 amended: on a successful create the sqlite variant sends exactly
the identity-establishing preamble (quoting the assigned name) followed
by the caller prompt, tagged with the agent type; the structured-file
variant sends the caller prompt verbatim with no preamble, also tagged
with the agent type. -/
theorem initial_prompt_content (sid now : String) (fs : FileState) (t : DbTable)
    (liveF liveD : Liveness) (n : String) (a : Option String) (p c : String) :
    (lookupKey (loadCoworkersDb t) (toLowerStr n) = none →
      (createDb ⟨some sid, now⟩ t liveD n a p c).prompts =
        [⟨sid, modifiedPrompt n p, some (a.getD "general")⟩] ∧
      (modifiedPrompt n p).data =
        ("IMPORTANT: your name is " ++ apos).data ++ n.data
          ++ (apos ++ ". ").data ++ p.data) ∧
    (lookupKey (loadCoworkersFile fs) (toLowerStr n) = none →
      (createFile ⟨some sid, now⟩ fs liveF n a p c).prompts =
        [⟨sid, p, some (a.getD "code")⟩]) := by
  constructor
  · intro h
    constructor
    · simp [createDb, h]
    · simp [modifiedPrompt, data_append, List.append_assoc]
  · intro h
    simp [createFile, h]

/-- C3 witness: a fresh create of "bob" in each variant; the sqlite
variant sends the quoted-name preamble before "hi", the structured-file
variant sends "hi" alone. -/
theorem initial_prompt_content_witness :
    lookupKey (loadCoworkersDb []) (toLowerStr "bob") = none ∧
    lookupKey (loadCoworkersFile .missing) (toLowerStr "bob") = none ∧
    (createDb ⟨some "s1", "t0"⟩ [] ⟨[], []⟩ "bob" none "hi" "p0").prompts =
      [⟨"s1", "IMPORTANT: your name is \x27bob\x27. hi", some "general"⟩] ∧
    (createFile ⟨some "s1", "t0"⟩ .missing ⟨[], []⟩ "bob" none "hi" "p0").prompts =
      [⟨"s1", "hi", some "code"⟩] := by
  refine ⟨by decide, by decide, ?_, ?_⟩
  · exact (((initial_prompt_content "s1" "t0" .missing [] ⟨[], []⟩ ⟨[], []⟩
      "bob" none "hi" "p0").1 (by decide)).1).trans (by decide)
  · exact ((initial_prompt_content "s1" "t0" .missing [] ⟨[], []⟩ ⟨[], []⟩
      "bob" none "hi" "p0").2 (by decide))

/-! ## C1 -/

/-- C1: after a successful create of one casing of a name, creating any
name with the same normalized form fails with the AlreadyExists text
naming the existing record's sessionId, issues no external call at all,
and leaves the stored file and the liveness maps exactly as the first
create left them (structured-file variant). -/
theorem create_duplicate_case_fold (sid now : String) (env2 : Env) (fs : FileState)
    (live : Liveness) (n1 n2 : String) (a1 a2 : Option String) (p1 p2 c1 c2 : String)
    (hcase : toLowerStr n1 = toLowerStr n2)
    (habsent : lookupKey (loadCoworkersFile fs) (toLowerStr n1) = none) :
    createFile env2 (createFile ⟨some sid, now⟩ fs live n1 a1 p1 c1).file
        (createFile ⟨some sid, now⟩ fs live n1 a1 p1 c1).live n2 a2 p2 c2 =
      { text := "Error: Coworker \"" ++ toLowerStr n2
          ++ "\" already exists with session " ++ sid,
        file := (createFile ⟨some sid, now⟩ fs live n1 a1 p1 c1).file,
        live := (createFile ⟨some sid, now⟩ fs live n1 a1 p1 c1).live,
        creates := [], prompts := [] } := by
  have h1 : (createFile ⟨some sid, now⟩ fs live n1 a1 p1 c1).file =
      saveCoworkersFile (setKey (loadCoworkersFile fs) (toLowerStr n1)
        ⟨sid, a1.getD "code", now, some c1⟩) := by
    simp [createFile, habsent]
  have hm : loadCoworkersFile (saveCoworkersFile (setKey (loadCoworkersFile fs)
        (toLowerStr n1) ⟨sid, a1.getD "code", now, some c1⟩)) =
      setKey (loadCoworkersFile fs) (toLowerStr n1) ⟨sid, a1.getD "code", now, some c1⟩ := by
    show normalizeStorage _ = _
    apply normalizeStorage_eq_self
    · exact keysNorm_setKey _ n1 _ (keysNorm_loadCoworkersFile fs)
    · exact keysNodup_setKey _ _ _ (keysNodup_loadCoworkersFile fs)
  have hlook : lookupKey
      (loadCoworkersFile (createFile ⟨some sid, now⟩ fs live n1 a1 p1 c1).file)
      (toLowerStr n2) = some ⟨sid, a1.getD "code", now, some c1⟩ := by
    rw [h1, hm, ← hcase]
    exact lookupKey_setKey_self _ _ _
  generalize hO : createFile ⟨some sid, now⟩ fs live n1 a1 p1 c1 = o1 at hlook ⊢
  simp [createFile, hlook]

/-- C1 witness: create "Bob" then create "bob" on a missing file: the
second call fails naming session s1 and changes nothing. -/
theorem create_duplicate_case_fold_witness :
    toLowerStr "Bob" = toLowerStr "bob" ∧
    lookupKey (loadCoworkersFile .missing) (toLowerStr "Bob") = none ∧
    createFile ⟨some "s9", "t9"⟩
        (createFile ⟨some "s1", "t0"⟩ .missing ⟨[], []⟩ "Bob" none "hi" "p0").file
        (createFile ⟨some "s1", "t0"⟩ .missing ⟨[], []⟩ "Bob" none "hi" "p0").live
        "bob" none "hi2" "p1" =
      { text := "Error: Coworker \"bob\" already exists with session s1",
        file := (createFile ⟨some "s1", "t0"⟩ .missing ⟨[], []⟩ "Bob" none "hi" "p0").file,
        live := (createFile ⟨some "s1", "t0"⟩ .missing ⟨[], []⟩ "Bob" none "hi" "p0").live,
        creates := [], prompts := [] } := by
  refine ⟨by decide, by decide, ?_⟩
  have h := create_duplicate_case_fold "s1" "t0" ⟨some "s9", "t9"⟩ .missing ⟨[], []⟩
      "Bob" "bob" none none "hi" "hi2" "p0" "p1" (by decide) (by decide)
  exact h.trans (by decide)

/-! ## C2 -/

/-- C2 counterexample: with identical (empty) starting store content,
identical liveness maps and identical external responses, create already
produces different result text in the two backends (default agent type
"code" versus "general"), so the two backends are not observationally
identical over every operation. -/
theorem backend_equivalence_cex :
    loadCoworkersFile .missing = loadCoworkersDb [] ∧
    (createFile ⟨some "s1", "t0"⟩ .missing ⟨[], []⟩ "x" none "p" "c").text ≠
      (createDb ⟨some "s1", "t0"⟩ [] ⟨[], []⟩ "x" none "p" "c").text :=
  ⟨rfl, by decide⟩

/-- C2 amended: the backend equivalence holds for the read-only
operations: whenever the two stores load to the same mapping and the
liveness maps coincide, list and tell produce identical result text and
identical external calls in both backends and leave the loaded store
content identical; create and remove differ between the two variants. -/
theorem backend_equivalence_list_tell (fs : FileState) (t : DbTable) (active : SMap)
    (n msg : String) (h : loadCoworkersFile fs = loadCoworkersDb t) :
    listCoworkersFile fs active = listCoworkersDb t active ∧
    (tellCoworkerFile fs n msg).text = (tellCoworkerDb t n msg).text ∧
    (tellCoworkerFile fs n msg).prompts = (tellCoworkerDb t n msg).prompts ∧
    loadCoworkersFile (tellCoworkerFile fs n msg).file
      = loadCoworkersDb (tellCoworkerDb t n msg).table := by
  refine ⟨?_, ?_, ?_, ?_⟩
  · simp only [listCoworkersFile, listCoworkersDb, h]
  · cases hl : lookupKey (loadCoworkersDb t) (toLowerStr n) with
    | none => simp [tellCoworkerFile, tellCoworkerDb, h, hl]
    | some c => simp [tellCoworkerFile, tellCoworkerDb, h, hl]
  · cases hl : lookupKey (loadCoworkersDb t) (toLowerStr n) with
    | none => simp [tellCoworkerFile, tellCoworkerDb, h, hl]
    | some c => simp [tellCoworkerFile, tellCoworkerDb, h, hl]
  · cases hl : lookupKey (loadCoworkersDb t) (toLowerStr n) with
    | none => simp [tellCoworkerFile, tellCoworkerDb, h, hl]
    | some c => simp [tellCoworkerFile, tellCoworkerDb, h, hl]

/-- C2 witness: a one-record file store and a one-row table that load to
the same mapping give identical list output and tell behavior. -/
theorem backend_equivalence_list_tell_witness :
    loadCoworkersFile (.content [("bob", ⟨"s1", "code", "t0", none⟩)])
      = loadCoworkersDb [⟨"bob", "s1", "code", "t0", none⟩] ∧
    listCoworkersFile (.content [("bob", ⟨"s1", "code", "t0", none⟩)]) []
      = listCoworkersDb [⟨"bob", "s1", "code", "t0", none⟩] [] ∧
    (tellCoworkerFile (.content [("bob", ⟨"s1", "code", "t0", none⟩)]) "bob" "m").prompts
      = (tellCoworkerDb [⟨"bob", "s1", "code", "t0", none⟩] "bob" "m").prompts := by
  refine ⟨by decide, ?_, ?_⟩
  · exact (backend_equivalence_list_tell (.content [("bob", ⟨"s1", "code", "t0", none⟩)])
      [⟨"bob", "s1", "code", "t0", none⟩] [] "bob" "m" (by decide)).1
  · exact (backend_equivalence_list_tell (.content [("bob", ⟨"s1", "code", "t0", none⟩)])
      [⟨"bob", "s1", "code", "t0", none⟩] [] "bob" "m" (by decide)).2.2.1

/-! ## C10 -/

/-- One tool invocation of the sqlite variant (the variant exposing all
four tools). -/
inductive Op where
  | createOp (env : Env) (argName : String) (argAgent : Option String)
      (argPrompt : String) (caller : String)
  | listOp
  | tellOp (argName message : String)
  | removeOp (argName : String)

/-- The mutable state a tool invocation can touch: the persistent table
and the in-memory liveness maps. -/
structure PluginState where
  table : DbTable
  live : Liveness

/-- Effect of one tool invocation on the state (list and tell leave both
components unchanged; their result text is irrelevant here). -/
def applyOp (s : PluginState) : Op → PluginState
  | .createOp env n a p c =>
    { table := (createDb env s.table s.live n a p c).table,
      live := (createDb env s.table s.live n a p c).live }
  | .listOp => s
  | .tellOp n msg =>
    { table := (tellCoworkerDb s.table n msg).table, live := s.live }
  | .removeOp n =>
    { table := (removeCoworkerDb s.table s.live n).table,
      live := (removeCoworkerDb s.table s.live n).live }

/-- The two liveness maps hold exactly the same keys. -/
def sameKeys (live : Liveness) : Prop :=
  ∀ k, hasKey live.activeSessions k = hasKey live.sessionParents k

theorem sameKeys_createDb (env : Env) (t : DbTable) (live : Liveness)
    (n : String) (a : Option String) (p c : String) (h : sameKeys live) :
    sameKeys (createDb env t live n a p c).live := by
  cases hl : lookupKey (loadCoworkersDb t) (toLowerStr n) with
  | some x =>
    intro k
    simp only [createDb, hl]
    exact h k
  | none =>
    cases he : env.createResult with
    | none =>
      intro k
      simp only [createDb, hl, he]
      exact h k
    | some sid =>
      intro k
      simp only [createDb, hl, he]
      rw [hasKey_setKey, hasKey_setKey, h k]

theorem sameKeys_removeDb (t : DbTable) (live : Liveness) (n : String)
    (h : sameKeys live) : sameKeys (removeCoworkerDb t live n).live := by
  cases hl : lookupKey (loadCoworkersDb t) (toLowerStr n) with
  | none =>
    intro k
    simp only [removeCoworkerDb, hl]
    exact h k
  | some c =>
    intro k
    simp only [removeCoworkerDb, hl]
    rw [hasKey_delKey, hasKey_delKey, h k]

/-- C10: starting from empty liveness maps, every sequence of tool
invocations preserves the invariant that activeSessions and
sessionParents hold exactly the same key set: create inserts the new
sessionId into both maps, remove deletes it from both, list and tell
touch neither. -/
theorem liveness_keysets_equal (ops : List Op) (t0 : DbTable) :
    sameKeys (ops.foldl applyOp ⟨t0, ⟨[], []⟩⟩).live := by
  have hstep : ∀ s op, sameKeys s.live → sameKeys (applyOp s op).live := by
    intro s op hs
    cases op with
    | createOp env n a p c => exact sameKeys_createDb env s.table s.live n a p c hs
    | listOp => exact hs
    | tellOp n msg => exact hs
    | removeOp n => exact sameKeys_removeDb s.table s.live n hs
  have hall : ∀ (l : List Op) (s : PluginState), sameKeys s.live →
      sameKeys (l.foldl applyOp s).live := by
    intro l
    induction l with
    | nil => exact fun s hs => hs
    | cons op rest ih => exact fun s hs => ih _ (hstep s op hs)
  exact hall ops _ (fun k => rfl)

end OpencodeCoworker
